import Mathlib

/-!
Verification development for the octodns-hetzner provider.

This file gives a shallow embedding, in Lean 4, of the record codec, the
apply strategies, the per-record (dnsapi) client pagination, the RRSet
(hcloud) adapter, and the provider orchestrator of the octodns-hetzner
repository, together with theorems settling the frozen claims about it.

Conventions of the embedding:
- Python strings are Lean String values; character-level operations work on
  String.data (a List Char).
- Python exceptions are modelled with Except: a raised exception is an
  error value, and try/except blocks are modelled by matching on it.
- Mutation of provider-side resources (zones, RRSets) is modelled by
  explicit state passing: a function that mutates remote state takes the
  current view and returns the updated one, together with a description of
  the API call(s) it performed.
-/

namespace OctoHetzner

/-- Backslash character, written via its code point. -/
def bslash : Char := Char.ofNat 92

/-- Double-quote character, written via its code point. -/
def dquote : Char := Char.ofNat 34

/-- Single-quote character, written via its code point. -/
def squote : Char := Char.ofNat 39

/-! ## Semicolon escaping (record codec, multi-value types)

The provider rewrites each semicolon of a wire value to a backslash
followed by a semicolon when decoding (source: _data_for_multiple,
value.replace of one char by two), and rewrites each backslash-semicolon
pair back to a semicolon when encoding (source: _params_for_multiple).
Python str.replace scans left to right and replaces non-overlapping
occurrences, which for a single-character pattern is a character map and
for the two-character pattern is the recursion below. -/

/-- Embedding of value.replace for the one-character pattern of a
semicolon replaced by backslash-semicolon (decode direction). -/
def escapeSemis : List Char → List Char
  | [] => []
  | c :: rest =>
    if c = ';' then bslash :: ';' :: escapeSemis rest
    else c :: escapeSemis rest

/-- Embedding of value.replace for the two-character pattern of a
backslash-semicolon replaced by a semicolon (encode direction); leftmost
non-overlapping occurrences, as Python str.replace does. -/
def unescapeSemis : List Char → List Char
  | [] => []
  | [c] => [c]
  | c :: d :: rest =>
    if c = bslash ∧ d = ';' then ';' :: unescapeSemis rest
    else c :: unescapeSemis (d :: rest)

/-- String-level decode-direction escape. -/
def escapeSemisStr (s : String) : String := String.mk (escapeSemis s.data)

/-- String-level encode-direction unescape. -/
def unescapeSemisStr (s : String) : String := String.mk (unescapeSemis s.data)

/-! ## Data model

FlatRecord mirrors the dict rows produced by both clients (keys id, type,
name, value, ttl, zone_id); the ttl key may be absent, hence Option.
ZoneDict mirrors the zone metadata dicts (keys id, name, ttl). Since type
is a Lean keyword, the field is called rtype throughout. -/

structure FlatRecord where
  id : String
  rtype : String
  name : String
  value : String
  ttl : Option Nat
  zone_id : String
  deriving Repr, DecidableEq

structure ZoneDict where
  id : String
  name : String
  ttl : Nat
  deriving Repr, DecidableEq

/-- Errors raised by the decode helpers: IndexError on an empty record
group (records[0]), IndexError on indexing the last character of an empty
string, ValueError from int(), KeyError when the zone metadata cache has
no entry for the zone id, and IndexError on indexing into an empty token
list. -/
inductive DecErr
  | emptyGroup
  | emptyValue
  | intParse
  | metaMissing
  | indexError
  deriving Repr, DecidableEq

/-- Embedding of HetznerProvider._record_ttl: the default TTL is read from
the zone metadata cache, keyed by the zone id of the record (raising
KeyError when absent), and the record TTL is used when the record carries
one. -/
def recordTtl (meta : List (String × ZoneDict)) (r : FlatRecord) :
    Except DecErr Nat :=
  match meta.lookup r.zone_id with
  | none => .error .metaMissing
  | some z => .ok (r.ttl.getD z.ttl)

/-- Embedding of HetznerProvider._append_dot: the value is returned as-is
when it is the at-sign or already ends in a dot, otherwise a dot is
appended; indexing the last character of an empty string raises. -/
def appendDot (value : String) : Except DecErr String :=
  if value = "@" then .ok value
  else
    match value.data.getLast? with
    | none => .error .emptyValue
    | some c => if c = '.' then .ok value else .ok (value ++ ".")

/-- Decoded shape shared by A, AAAA, TXT and NS record groups. -/
structure MultiData where
  ttl : Nat
  rtype : String
  values : List String
  deriving Repr, DecidableEq

/-- Embedding of HetznerProvider._data_for_multiple (used for A, AAAA and
TXT): every wire value has its semicolons escaped, and the group TTL is
resolved from the first record. -/
def dataForMultiple (meta : List (String × ZoneDict)) (rtype : String)
    (records : List FlatRecord) : Except DecErr MultiData :=
  let values := records.map (fun r => escapeSemisStr r.value)
  match records with
  | [] => .error .emptyGroup
  | r0 :: _ => (recordTtl meta r0).map (fun ttl => ⟨ttl, rtype, values⟩)

/-- Fields of the external octodns Record object that the encode helpers
read: name, type, ttl, and the list of structured values. -/
structure ModelRecord where
  name : String
  rtype : String
  ttl : Nat
  values : List String
  deriving Repr, DecidableEq

/-- One entry of the wire parameters yielded by a params helper. -/
structure RecordParams where
  value : String
  name : String
  ttl : Nat
  rtype : String
  deriving Repr, DecidableEq

/-- Embedding of HetznerProvider._params_for_multiple: one wire entry per
value, with escaped semicolons rewritten back. -/
def paramsForMultiple (record : ModelRecord) : List RecordParams :=
  record.values.map
    (fun v => ⟨unescapeSemisStr v, record.name, record.ttl, record.rtype⟩)

/-! ## Shell-style tokenization (shlex.split) and Python int parsing

The CAA decoder tokenizes the raw value with shlex.split, which uses
POSIX rules: tokens are separated by whitespace (space, tab, carriage
return, newline); single quotes protect everything up to the closing
single quote; double quotes protect everything up to the closing double
quote except that a backslash escapes a double quote or a backslash (and
is otherwise kept literally); outside quotes a backslash escapes any
single character. An unclosed quote or a trailing backslash raises
ValueError. A quoted empty string yields an empty token. -/

/-- Whitespace characters recognized by shlex. -/
def shlexSpace (c : Char) : Bool :=
  c = ' ' ∨ c = Char.ofNat 9 ∨ c = Char.ofNat 13 ∨ c = Char.ofNat 10

/-- Tokenizer mode: outside quotes, inside single quotes, inside double
quotes. -/
inductive ShMode
  | norm
  | single
  | double
  deriving Repr, DecidableEq

/-- Append the pending token to the output when one was started. -/
def shEmit (started : Bool) (tok : List Char) (acc : List String) :
    List String :=
  if started then acc ++ [String.mk tok] else acc

/-- Core loop of the POSIX shlex tokenizer. Arguments: remaining input,
mode, whether a token is in progress, the pending token, the tokens
produced so far. The error value models a raised ValueError. -/
def shlexRun : List Char → ShMode → Bool → List Char → List String →
    Except Unit (List String)
  | [], .norm, started, tok, acc => .ok (shEmit started tok acc)
  | [], .single, _, _, _ => .error ()
  | [], .double, _, _, _ => .error ()
  | c :: rest, .norm, started, tok, acc =>
    if shlexSpace c then shlexRun rest .norm false [] (shEmit started tok acc)
    else if c = squote then shlexRun rest .single true tok acc
    else if c = dquote then shlexRun rest .double true tok acc
    else if c = bslash then
      match rest with
      | [] => .error ()
      | d :: rest2 => shlexRun rest2 .norm true (tok ++ [d]) acc
    else shlexRun rest .norm true (tok ++ [c]) acc
  | c :: rest, .single, started, tok, acc =>
    if c = squote then shlexRun rest .norm started tok acc
    else shlexRun rest .single started (tok ++ [c]) acc
  | c :: rest, .double, started, tok, acc =>
    if c = dquote then shlexRun rest .norm started tok acc
    else if c = bslash then
      match rest with
      | [] => .error ()
      | d :: rest2 =>
        if d = dquote ∨ d = bslash then
          shlexRun rest2 .double started (tok ++ [d]) acc
        else shlexRun rest2 .double started (tok ++ [bslash, d]) acc
    else shlexRun rest .double started (tok ++ [c]) acc

/-- Embedding of shlex.split on a whole string. -/
def shlexSplit (s : String) : Except Unit (List String) :=
  shlexRun s.data .norm false [] []

/-- Digit accumulator for Python int literals, allowing a single
underscore between digits. -/
def parseDigitsAux (acc : Nat) : List Char → Option Nat
  | [] => some acc
  | c :: rest =>
    if c.isDigit then parseDigitsAux (acc * 10 + (c.toNat - 48)) rest
    else if c = '_' then
      match rest with
      | [] => none
      | d :: rest2 =>
        if d.isDigit then parseDigitsAux (acc * 10 + (d.toNat - 48)) rest2
        else none
    else none

/-- Parse a nonempty digit run (with optional single underscores between
digits) as a natural number. -/
def parseDigits : List Char → Option Nat
  | [] => none
  | c :: rest =>
    if c.isDigit then parseDigitsAux (c.toNat - 48) rest else none

/-- Embedding of Python int() applied to a string: surrounding whitespace
is stripped, an optional sign is accepted, then ASCII digits with
optional single underscores between digits; anything else raises
ValueError (modelled as none). -/
def pyInt (s : String) : Option Int :=
  let l := ((s.data.dropWhile Char.isWhitespace).reverse.dropWhile
    Char.isWhitespace).reverse
  match l with
  | '-' :: rest => (parseDigits rest).map (fun n => -(n : Int))
  | '+' :: rest => (parseDigits rest).map (fun n => (n : Int))
  | _ => (parseDigits l).map (fun n => (n : Int))

/-! ## CAA decoding -/

/-- Structured CAA value. -/
structure CAAVal where
  flags : Int
  tag : String
  value : String
  deriving Repr, DecidableEq

/-- Decoded shape of a CAA record group. -/
structure CAAData where
  ttl : Nat
  rtype : String
  values : List CAAVal
  deriving Repr, DecidableEq

/-- The try-block of HetznerProvider._data_for_CAA for one record: shlex
tokenization (whose ValueError propagates to the except), a ValueError
when fewer than three tokens result, int() on the first token, and the
structured value from the first three tokens. -/
def caaTryParse (raw : String) : Except Unit CAAVal :=
  match shlexSplit raw with
  | .error _ => .error ()
  | .ok parts =>
    if parts.length < 3 then .error ()
    else
      match parts with
      | p0 :: p1 :: p2 :: _ =>
        match pyInt p0 with
        | none => .error ()
        | some flags => .ok ⟨flags, p1, p2⟩
      | [] => .error ()
      | [_] => .error ()
      | [_, _] => .error ()

/-- One CAA value as produced by _data_for_CAA: the parsed value when the
try-block succeeds, otherwise the logged fallback with flags 0 and tag
issue carrying the raw text. -/
def caaValueFor (raw : String) : CAAVal :=
  match caaTryParse raw with
  | .ok v => v
  | .error _ => ⟨0, "issue", raw⟩

/-- Embedding of HetznerProvider._data_for_CAA: best-effort decode of
every record of the group, then group TTL from the first record. -/
def dataForCAA (meta : List (String × ZoneDict)) (rtype : String)
    (records : List FlatRecord) : Except DecErr CAAData :=
  let values := records.map (fun r => caaValueFor r.value)
  match records with
  | [] => .error .emptyGroup
  | r0 :: _ => (recordTtl meta r0).map (fun ttl => ⟨ttl, rtype, values⟩)

/-! ## Remaining decoders: CNAME, PTR, NS, MX, SRV -/

/-- Embedding of Python str.strip(): whitespace removed from both ends. -/
def pyStrip (s : String) : String :=
  String.mk (((s.data.dropWhile Char.isWhitespace).reverse.dropWhile
    Char.isWhitespace).reverse)

/-- Core of Python str.split with a single-space separator: consecutive
separators produce empty fields, and the result is never empty. -/
def pySplitSpaceAux : List Char → List Char → List String
  | [], cur => [String.mk cur.reverse]
  | c :: rest, cur =>
    if c = ' ' then String.mk cur.reverse :: pySplitSpaceAux rest []
    else pySplitSpaceAux rest (c :: cur)

/-- Embedding of Python value.split applied with a single-space
separator. -/
def pySplitSpace (s : String) : List String :=
  pySplitSpaceAux s.data []

/-- Embedding of the Python slice value[: -k] (an empty string when k is
zero or at least the length). -/
def pySliceNeg (s : String) (k : Nat) : String :=
  if k = 0 then "" else String.mk (s.data.take (s.data.length - k))

/-- Left-to-right effectful map, the shape of the per-record loops of the
decoders: the first raised error aborts the loop. -/
def mapExcept (f : α → Except ε β) : List α → Except ε (List β)
  | [] => .ok []
  | a :: rest => do
    let b ← f a
    let bs ← mapExcept f rest
    .ok (b :: bs)

/-- Decoded shape of CNAME and PTR record groups. -/
structure SingleData where
  ttl : Nat
  rtype : String
  value : String
  deriving Repr, DecidableEq

/-- Embedding of HetznerProvider._data_for_CNAME: the TTL and dotted
value of the first record of the group. -/
def dataForCNAME (meta : List (String × ZoneDict)) (rtype : String)
    (records : List FlatRecord) : Except DecErr SingleData :=
  match records with
  | [] => .error .emptyGroup
  | r0 :: _ => do
    let ttl ← recordTtl meta r0
    let v ← appendDot r0.value
    .ok ⟨ttl, rtype, v⟩

/-- Embedding of HetznerProvider._data_for_PTR (same body as CNAME). -/
def dataForPTR (meta : List (String × ZoneDict)) (rtype : String)
    (records : List FlatRecord) : Except DecErr SingleData :=
  match records with
  | [] => .error .emptyGroup
  | r0 :: _ => do
    let ttl ← recordTtl meta r0
    let v ← appendDot r0.value
    .ok ⟨ttl, rtype, v⟩

/-- Embedding of HetznerProvider._data_for_NS: every value gets a
trailing dot, then the group TTL comes from the first record. -/
def dataForNS (meta : List (String × ZoneDict)) (rtype : String)
    (records : List FlatRecord) : Except DecErr MultiData := do
  let values ← mapExcept (fun r => appendDot r.value) records
  match records with
  | [] => .error .emptyGroup
  | r0 :: _ => (recordTtl meta r0).map (fun ttl => ⟨ttl, rtype, values⟩)

/-- Structured MX value. -/
structure MXVal where
  preference : Int
  exchange : String
  deriving Repr, DecidableEq

/-- Decoded shape of an MX record group. -/
structure MXData where
  ttl : Nat
  rtype : String
  values : List MXVal
  deriving Repr, DecidableEq

/-- Decode of one MX wire value: strip, split on single spaces, integer
preference from the first token, dotted exchange from the last token (the
int call is evaluated before the append-dot call, per the dict literal
order in the source). -/
def mxOne (r : FlatRecord) : Except DecErr MXVal :=
  match pySplitSpace (pyStrip r.value) with
  | [] => .error .indexError
  | p :: ps =>
    match pyInt p with
    | none => .error .intParse
    | some pref =>
      (appendDot ((p :: ps).getLast (List.cons_ne_nil p ps))).map
        (fun ex => ⟨pref, ex⟩)

/-- Embedding of HetznerProvider._data_for_MX: the per-record loop runs
first (so its errors surface first), then the group TTL is read from the
first record. -/
def dataForMX (meta : List (String × ZoneDict)) (rtype : String)
    (records : List FlatRecord) : Except DecErr MXData := do
  let values ← mapExcept mxOne records
  match records with
  | [] => .error .emptyGroup
  | r0 :: _ => (recordTtl meta r0).map (fun ttl => ⟨ttl, rtype, values⟩)

/-- Structured SRV value, fields in the dict-literal order of the
source. -/
structure SRVVal where
  port : Int
  priority : Int
  target : String
  weight : Int
  deriving Repr, DecidableEq

/-- Decoded shape of an SRV record group. -/
structure SRVData where
  ttl : Nat
  rtype : String
  values : List SRVVal
  deriving Repr, DecidableEq

/-- Decode of one SRV wire value, mirroring the source: priority is the
first token of the stripped value; weight is the first token after
skipping the priority prefix; target is the last token; port is the last
token of the value with the target suffix sliced off. The int and
append-dot calls are evaluated in the dict-literal order port, priority,
target, weight. -/
def srvOne (r : FlatRecord) : Except DecErr SRVVal :=
  match pySplitSpace (pyStrip r.value) with
  | [] => .error .indexError
  | p :: ps =>
    match pySplitSpace (pyStrip ((pyStrip r.value).drop p.length)) with
    | [] => .error .indexError
    | w :: _ =>
      match pySplitSpace (pyStrip (pySliceNeg (pyStrip r.value)
          ((p :: ps).getLast (List.cons_ne_nil p ps)).length)) with
      | [] => .error .indexError
      | q :: qs =>
        match pyInt ((q :: qs).getLast (List.cons_ne_nil q qs)) with
        | none => .error .intParse
        | some port =>
          match pyInt p with
          | none => .error .intParse
          | some prio =>
            (appendDot ((p :: ps).getLast (List.cons_ne_nil p ps))).bind
              (fun tgt =>
                match pyInt w with
                | none => .error .intParse
                | some weight => .ok ⟨port, prio, tgt, weight⟩)

/-- Embedding of HetznerProvider._data_for_SRV: per-record loop first,
then the group TTL from the first record. -/
def dataForSRV (meta : List (String × ZoneDict)) (rtype : String)
    (records : List FlatRecord) : Except DecErr SRVData := do
  let values ← mapExcept srvOne records
  match records with
  | [] => .error .emptyGroup
  | r0 :: _ => (recordTtl meta r0).map (fun ttl => ⟨ttl, rtype, values⟩)

/-- The last whitespace-separated token of a value, as both the MX and
the SRV decoder extract it (the exchange and target fields). -/
def lastToken (v : String) : String :=
  ((pySplitSpace (pyStrip v)).getLastD "")

/-! ## Apply strategies (strategies.py) and their client calls

A strategy translates one octodns change into client calls. The embedding
records the calls a strategy issues as a list, in issue order. -/

/-- One client API call, as issued by a strategy or by the provider. -/
inductive ApiCall
  | createRecord (zone_id name rtype value : String) (ttl : Nat)
  | deleteRecord (zone_id record_id : String)
  | rrsetUpsertCall (zone_id name rtype : String) (values : List String) (ttl : Nat)
  | rrsetDeleteCall (zone_id name rtype : String)
  | zoneCreateCall (name : String)
  deriving Repr, DecidableEq

/-- The match test of DNSAPIStrategy.apply_delete: the existing record
and the cached row agree on name and type. -/
def recordMatches (existing : ModelRecord) (r : FlatRecord) : Bool :=
  existing.name == r.name && existing.rtype == r.rtype

/-- Embedding of DNSAPIStrategy.apply_create: one createRecord call per
entry yielded by the params generator, in order. -/
def dnsapiApplyCreate (zone_id : String) (new : ModelRecord)
    (paramsFor : ModelRecord → List RecordParams) : List ApiCall :=
  (paramsFor new).map
    (fun p => .createRecord zone_id p.name p.rtype p.value p.ttl)

/-- Embedding of DNSAPIStrategy.apply_delete: one deleteRecord call per
cached zone row matching the existing record on name and type, in cache
order. -/
def dnsapiApplyDelete (zone_id : String) (existing : ModelRecord)
    (zone_records : List FlatRecord) : List ApiCall :=
  (zone_records.filter (recordMatches existing)).map
    (fun r => .deleteRecord zone_id r.id)

/-- Embedding of DNSAPIStrategy.apply_update: apply_delete for the
existing record followed by apply_create for the new one. -/
def dnsapiApplyUpdate (zone_id : String) (existing new : ModelRecord)
    (paramsFor : ModelRecord → List RecordParams)
    (zone_records : List FlatRecord) : List ApiCall :=
  dnsapiApplyDelete zone_id existing zone_records
    ++ dnsapiApplyCreate zone_id new paramsFor

/-- Embedding of HCloudStrategy.apply_create: the values of all params
entries are collected into one list and a single rrset_upsert call is
issued with the whole set. -/
def hcloudApplyCreate (zone_id : String) (new : ModelRecord)
    (paramsFor : ModelRecord → List RecordParams) : List ApiCall :=
  [.rrsetUpsertCall zone_id new.name new.rtype
    ((paramsFor new).map (fun p => p.value)) new.ttl]

/-- Embedding of HCloudStrategy.apply_update, which delegates to
apply_create. -/
def hcloudApplyUpdate (zone_id : String) (new : ModelRecord)
    (paramsFor : ModelRecord → List RecordParams) : List ApiCall :=
  hcloudApplyCreate zone_id new paramsFor

/-- Embedding of HCloudStrategy.apply_delete: one rrset_delete call for
the whole name and type set. -/
def hcloudApplyDelete (zone_id : String) (existing : ModelRecord) :
    List ApiCall :=
  [.rrsetDeleteCall zone_id existing.name existing.rtype]

/-- A TXT value of 256 identical characters, used to exercise the
long-value handling of the RRSet write path. -/
def longTxtValue : String := String.mk (List.replicate 256 'A')

/-! ## Record-CRUD client pagination (dnsapi_client.py) -/

/-- One page of the zone-listing response: the zones of the page and the
next-page value of the pagination metadata (absent or an integer). -/
structure PageResp where
  zones : List ZoneDict
  next_page : Option Int

/-- Embedding of the while-loop of HetznerClient.domains, with explicit
fuel standing for the number of iterations the unbounded Python loop has
executed so far: none means the loop is still running after that many
iterations, some gives the returned accumulator. Per iteration the page
is fetched, its zones appended, and the loop breaks when the next-page
value is absent, zero, or not greater than the current page; otherwise
the next-page value becomes the current page. -/
def domainsAux (resp : Int → PageResp) : Nat → Int → List ZoneDict →
    Option (List ZoneDict)
  | 0, _, _ => none
  | fuel + 1, page, acc =>
    match (resp page).next_page with
    | none => some (acc ++ (resp page).zones)
    | some np =>
      if np = 0 ∨ np ≤ page then some (acc ++ (resp page).zones)
      else domainsAux resp fuel np (acc ++ (resp page).zones)

/-- Embedding of HetznerClient.domains: the loop starts at page 1 with an
empty accumulator. -/
def domains (resp : Int → PageResp) (fuel : Nat) : Option (List ZoneDict) :=
  domainsAux resp fuel 1 []

/-- A concrete two-page listing: page 1 points at page 2, page 2 returns
a zero next-page sentinel. -/
def pageRespExample (page : Int) : PageResp :=
  if page = 1 then ⟨[⟨"z1", "alpha.test", 3600⟩], some 2⟩
  else ⟨[⟨"z2", "beta.test", 3600⟩], some 0⟩

/-! ## RRSet adapter (hcloud_adapter.py)

The adapter operates on the RRSets of a resolved zone. The effect of a
successful write call on the provider is modelled by returning the
updated RRSet list together with an action descriptor; the signature
fallback ladder (rrset-, zone- and service-level call shapes) concerns
only how the call is transported, not which RRSet is matched or what the
resulting resource state is, and is therefore collapsed into the single
modelled effect. -/

/-- Provider-side RRSet: identifier, provider-convention name (the
at-sign for the apex), type, optional TTL, and the value of each
contained record. -/
structure RRSet where
  id : String
  name : String
  rtype : String
  ttl : Option Nat
  records : List String
  deriving Repr, DecidableEq

/-- Python truthiness of an optional TTL: zero and absent both count as
falsy in the or-chains of the adapter. -/
def truthyTtl (o : Option Nat) : Option Nat :=
  match o with
  | some 0 => none
  | some t => some t
  | none => none

/-- The or-chain rrset-ttl or zone-ttl or 3600 used by the adapter. -/
def pyTtlChain (r z : Option Nat) : Nat :=
  (truthyTtl r).getD ((truthyTtl z).getD 3600)

/-- Python string truthiness: a or b for strings. -/
def pyOrStr (a b : String) : String := if a = "" then b else a

/-- Apex normalization applied by zone_records_get when reading: the
at-sign becomes the empty string. -/
def normApexName (name : String) : String := if name = "@" then "" else name

/-- Embedding of HCloudZonesClient.zone_records_get: every RRSet is
flattened into one row per contained value, with a synthetic id of the
RRSet id, a colon, and the value; the apex name is normalized and the
TTL falls back from the RRSet to the zone to 3600. -/
def zoneRecordsGet (zone_id : String) (zoneTtl : Option Nat)
    (rrsets : List RRSet) : List FlatRecord :=
  rrsets.flatMap (fun rrset =>
    rrset.records.map (fun v =>
      { id := rrset.id ++ ":" ++ v
        rtype := rrset.rtype
        name := normApexName rrset.name
        value := v
        ttl := some (pyTtlChain rrset.ttl zoneTtl)
        zone_id := zone_id }))

/-- The matching test of rrset_upsert and rrset_delete: the RRSet name is
compared with the request name (with Python name-or-empty applied to the
request side only) and the types must agree. -/
def rrsetMatches (name rtype : String) (r : RRSet) : Bool :=
  r.name == pyOrStr name "" && r.rtype == rtype

/-- The existing RRSet located by rrset_upsert, if any (first match). -/
def rrsetUpsertMatch (rrsets : List RRSet) (name rtype : String) :
    Option RRSet :=
  rrsets.find? (rrsetMatches name rtype)

/-- Action descriptor of an upsert: the call that was issued. -/
inductive UpsertAction
  | createdRRSet (name rtype : String) (values : List String) (ttl : Nat)
  | updatedRRSet (id : String) (values : List String) (ttl : Nat)
  deriving Repr, DecidableEq

/-- Replace the records and TTL of the first RRSet satisfying the test
(the effect of the update call on the located RRSet). -/
def updateFirstRRSet : List RRSet → (RRSet → Bool) → List String → Nat →
    List RRSet
  | [], _, _, _ => []
  | r :: rest, p, values, ttl =>
    if p r then { r with records := values, ttl := some ttl } :: rest
    else r :: updateFirstRRSet rest p values ttl

/-- Remove the first RRSet satisfying the test (the effect of the delete
call on the located RRSet). -/
def eraseFirstRRSet : List RRSet → (RRSet → Bool) → List RRSet
  | [], _ => []
  | r :: rest, p => if p r then rest else r :: eraseFirstRRSet rest p

/-- Embedding of HCloudZonesClient.rrset_upsert on the RRSets of the
resolved zone: when no existing RRSet matches, a new RRSet is created
carrying the request values and TTL under the name-or-apex-marker name
(the provider assigns the fresh id passed here as newId); when one
matches, its value list and TTL are replaced. -/
def rrsetUpsert (rrsets : List RRSet) (newId name rtype : String)
    (values : List String) (ttl : Nat) : UpsertAction × List RRSet :=
  match rrsetUpsertMatch rrsets name rtype with
  | none =>
    (.createdRRSet (pyOrStr name "@") rtype values ttl,
     rrsets ++ [⟨newId, pyOrStr name "@", rtype, some ttl, values⟩])
  | some target =>
    (.updatedRRSet target.id values ttl,
     updateFirstRRSet rrsets (rrsetMatches name rtype) values ttl)

/-- Embedding of HCloudZonesClient.rrset_delete: the first RRSet whose
name (compared raw against the request name-or-empty) and type match is
deleted; nothing happens when none matches. -/
def rrsetDelete (rrsets : List RRSet) (name rtype : String) :
    Option String × List RRSet :=
  match rrsets.find? (rrsetMatches name rtype) with
  | none => (none, rrsets)
  | some r => (some r.id, eraseFirstRRSet rrsets (rrsetMatches name rtype))

/-- Python record_id.partition at the first colon: the part before, and
the part after (empty when no colon occurs). -/
def partitionColon : List Char → List Char × List Char
  | [] => ([], [])
  | c :: rest =>
    if c = ':' then ([], rest)
    else
      ((partitionColon rest).1.cons c, (partitionColon rest).2)

/-- Action descriptor of a synthetic-id delete. -/
inductive RemoveAction
  | noop
  | deletedRRSet (id : String)
  | rewroteRRSet (id : String) (newValues : List String) (ttl : Nat)
  deriving Repr, DecidableEq

/-- Embedding of HCloudZonesClient._rrset_remove_value: the RRSet is
located by id (first match); all occurrences of the value are removed
from its value list; when nothing remains the whole RRSet is deleted,
otherwise it is rewritten with the remaining values (TTL from the
rrset-or-zone-or-3600 chain); when no RRSet carries the id, nothing
happens. -/
def rrsetRemoveValue (zoneTtl : Option Nat) (rrsets : List RRSet)
    (rrset_id value : String) : RemoveAction × List RRSet :=
  match rrsets.find? (fun r => r.id == rrset_id) with
  | none => (.noop, rrsets)
  | some target =>
    if target.records.filter (fun v => v ≠ value) = [] then
      (.deletedRRSet target.id,
       eraseFirstRRSet rrsets (fun r => r.id == rrset_id))
    else
      (.rewroteRRSet target.id (target.records.filter (fun v => v ≠ value))
         (pyTtlChain target.ttl zoneTtl),
       updateFirstRRSet rrsets (fun r => r.id == rrset_id)
         (target.records.filter (fun v => v ≠ value))
         (pyTtlChain target.ttl zoneTtl))

/-- Embedding of HCloudZonesClient.zone_record_delete: the synthetic id
is split at its first colon into RRSet id and value, then the value is
removed. -/
def zoneRecordDelete (zoneTtl : Option Nat) (rrsets : List RRSet)
    (record_id : String) : RemoveAction × List RRSet :=
  rrsetRemoveValue zoneTtl rrsets
    (String.mk (partitionColon record_id.data).1)
    (String.mk (partitionColon record_id.data).2)

/-! ## Zone resolution of the RRSet adapter (claim C3) -/

/-- Provider-side zone as seen through the remote read path. -/
structure RemoteZone where
  id : String
  name : String
  ttl : Option Nat
  rrsets : List RRSet
  deriving Repr, DecidableEq

/-- Embedding of HCloudZonesClient._get_zone_by_id_or_name: get_by_id is
tried first (its failures fall through), then get, which accepts an id
or a name, as the repository's own fake client mirrors; a miss in both
raises. No cache of any kind is consulted. -/
def getZoneByIdOrName (view : List RemoteZone) (key : String) :
    Option RemoteZone :=
  match view.find? (fun z => z.id == key) with
  | some z => some z
  | none => view.find? (fun z => z.id == key || z.name == key)

/-- Embedding of HCloudZonesClient.zone_create: the remote create call is
issued (its result id is createdId) and a plain dict of id, name and
ttl-or-3600 is returned; no cache entry of any kind is recorded. -/
def zoneCreate (createdId : String) (name : String) (ttl : Option Nat) :
    ZoneDict :=
  ⟨createdId, name, (truthyTtl ttl).getD 3600⟩

/-- rrset_upsert including the zone-resolution step: the zone is resolved
through the remote read view only; a resolution miss raises. On success
the located zone's RRSets are transformed as by rrsetUpsert. -/
def rrsetUpsertClient (view : List RemoteZone) (newId zone_id name rtype : String)
    (values : List String) (ttl : Nat) :
    Except Unit (UpsertAction × List RemoteZone) :=
  match getZoneByIdOrName view zone_id with
  | none => .error ()
  | some z =>
    .ok ((rrsetUpsert z.rrsets newId name rtype values ttl).1,
      view.map (fun w =>
        if w.id == z.id then
          { w with rrsets := (rrsetUpsert z.rrsets newId name rtype values ttl).2 }
        else w))

/-! ## Provider orchestrator (populate and apply)

The provider is modelled as explicit state (the three caches) threaded
through the operations, with the backend client as a function record.
The client zone_get error covers the exception classes the provider
normalizes into NotFound (HetznerClientNotFound, IndexError, KeyError,
TypeError). -/

/-- The client operations the orchestrator uses. -/
structure ClientSpec where
  zone_get : String → Except Unit ZoneDict
  zone_records_get : String → List FlatRecord
  zone_create : String → ZoneDict

/-- The provider caches: record rows keyed by zone name, zone metadata
keyed by zone id, and the name-to-id map. Insertion prepends (the newest
entry shadows), eviction removes every entry of the key. -/
structure ProviderState where
  zoneRecords : List (String × List FlatRecord)
  zoneMetadata : List (String × ZoneDict)
  zoneNameToId : List (String × String)
  deriving Repr, DecidableEq

/-- Errors of the orchestrator: the normalized NotFound, a KeyError on a
metadata cache miss by id, and a propagated decode error. -/
inductive PErr
  | notFound
  | cacheMiss
  | dec (e : DecErr)
  deriving Repr, DecidableEq

/-- Embedding of HetznerProvider.zone_metadata for the by-name path: the
name-to-id cache is consulted, then the metadata cache; on a name miss
the client zone_get is called with the name minus its trailing dot, any
of the caught exception classes becomes NotFound, and a success is
recorded in both caches. -/
def zoneMetadataByName (client : ClientSpec) (st : ProviderState)
    (zone_name : String) : Except PErr (ZoneDict × ProviderState) :=
  match st.zoneNameToId.lookup zone_name with
  | some zid =>
    match st.zoneMetadata.lookup zid with
    | some z => .ok (z, st)
    | none => .error .cacheMiss
  | none =>
    match client.zone_get (zone_name.dropRight 1) with
    | .error _ => .error .notFound
    | .ok z =>
      .ok (z, { st with
        zoneNameToId := (zone_name, z.id) :: st.zoneNameToId
        zoneMetadata := (z.id, z) :: st.zoneMetadata })

/-- Embedding of HetznerProvider.zone_records: cached rows are returned
as-is; otherwise the zone is resolved by name and its rows fetched and
cached; a NotFound from the resolution yields the empty list without
caching. -/
def zoneRecordsP (client : ClientSpec) (st : ProviderState)
    (zoneName : String) : Except PErr (List FlatRecord × ProviderState) :=
  match st.zoneRecords.lookup zoneName with
  | some recs => .ok (recs, st)
  | none =>
    match zoneMetadataByName client st zoneName with
    | .error .notFound => .ok ([], st)
    | .error e => .error e
    | .ok (z, st2) =>
      .ok (client.zone_records_get z.id,
        { st2 with
          zoneRecords := (zoneName, client.zone_records_get z.id)
            :: st2.zoneRecords })

/-- The record types the provider supports. -/
def SUPPORTS : List String :=
  ["A", "AAAA", "CAA", "CNAME", "DS", "MX", "NS", "PTR", "SRV", "TLSA", "TXT"]

/-- First occurrence of each element, in order (the iteration order of a
Python dict built by insertion). -/
def firstOcc {α : Type} [DecidableEq α] : List α → List α
  | [] => []
  | a :: rest => a :: firstOcc (rest.filter (fun x => x ≠ a))
termination_by l => l.length
decreasing_by
  simp only [List.length_cons]
  exact Nat.lt_succ_of_le (List.length_filter_le _ _)

/-- Grouping of populate: rows bucketed by name (in first-occurrence
order) and, within a name, by type (in first-occurrence order), keeping
row order inside a group. -/
def groupByNameType (records : List FlatRecord) :
    List ((String × String) × List FlatRecord) :=
  (firstOcc (records.map (fun r => r.name))).flatMap (fun n =>
    (firstOcc ((records.filter (fun r => r.name == n)).map
        (fun r => r.rtype))).map (fun t =>
      ((n, t),
       (records.filter (fun r => r.name == n)).filter
         (fun r => r.rtype == t))))

/-- Embedding of HetznerProvider.populate, parametric in the per-type
decode dispatch (the dynamic getattr lookup of the source): rows are
fetched (cache-first), unsupported types are skipped, the remaining rows
are grouped and decoded; the returned flag reports whether the zone name
is present in the record cache after the fetch (whether the zone
pre-existed). The insertion of the decoded records into the externally
owned octodns zone model lies outside the embedding. -/
def populateP {α : Type} (client : ClientSpec)
    (dataFor : String → List FlatRecord → Except DecErr α)
    (st : ProviderState) (zoneName : String) :
    Except PErr (List ((String × String) × α) × Bool × ProviderState) :=
  match zoneRecordsP client st zoneName with
  | .error e => .error e
  | .ok (recs, st2) =>
    match mapExcept
        (fun g => (dataFor g.1.2 g.2).map (fun d => (g.1, d)))
        (groupByNameType (recs.filter (fun r => SUPPORTS.contains r.rtype))) with
    | .error e => .error (.dec e)
    | .ok decoded =>
      .ok (decoded, (st2.zoneRecords.lookup zoneName).isSome, st2)

/-- One octodns change, with the zone name of the existing record (the
zone object attached to it) for the variants that read the record
cache. -/
inductive Change
  | create (new : ModelRecord)
  | update (existing new : ModelRecord) (zoneName : String)
  | delete (existing : ModelRecord) (zoneName : String)

/-- The strategy operations as the provider dispatches them. -/
structure StrategySpec where
  applyCreate : String → ModelRecord → List ApiCall
  applyUpdate : String → ModelRecord → ModelRecord → List FlatRecord →
    List ApiCall
  applyDelete : String → ModelRecord → List FlatRecord → List ApiCall

/-- Dispatch of one change: create goes straight to the strategy; update
and delete first fetch the zone record rows (cache-first, possibly
updating the cache). -/
def applyChange (client : ClientSpec) (strat : StrategySpec)
    (zone_id : String) (st : ProviderState) :
    Change → Except PErr (List ApiCall × ProviderState)
  | .create new => .ok (strat.applyCreate zone_id new, st)
  | .update ex new zn =>
    match zoneRecordsP client st zn with
    | .error e => .error e
    | .ok (recs, st2) => .ok (strat.applyUpdate zone_id ex new recs, st2)
  | .delete ex zn =>
    match zoneRecordsP client st zn with
    | .error e => .error e
    | .ok (recs, st2) => .ok (strat.applyDelete zone_id ex recs, st2)

/-- All changes of a plan, processed in plan order, accumulating the
issued calls in order. -/
def applyChanges (client : ClientSpec) (strat : StrategySpec)
    (zone_id : String) :
    List Change → ProviderState → Except PErr (List ApiCall × ProviderState)
  | [], st => .ok ([], st)
  | c :: cs, st =>
    match applyChange client strat zone_id st c with
    | .error e => .error e
    | .ok (calls, st2) =>
      match applyChanges client strat zone_id cs st2 with
      | .error e => .error e
      | .ok (more, st3) => .ok (calls ++ more, st3)

/-- Eviction of a cache key (dict pop): every entry of the key goes. -/
def eraseKey {β : Type} (l : List (String × β)) (k : String) :
    List (String × β) :=
  l.filter (fun p => p.1 ≠ k)

/-- The try/except around zone resolution at the start of _apply: on
success the resolved id is used, on the normalized NotFound the zone is
created (name minus trailing dot) and its id used directly, recording
nothing in the caches; other errors propagate. The zone-creation client
call is reported in the call prefix. -/
def resolveZoneForApply (client : ClientSpec) (st : ProviderState)
    (desiredName : String) :
    Except PErr (String × List ApiCall × ProviderState) :=
  match zoneMetadataByName client st desiredName with
  | .ok (z, st1) => .ok (z.id, ([] : List ApiCall), st1)
  | .error .notFound =>
    .ok ((client.zone_create (desiredName.dropRight 1)).id,
         [ApiCall.zoneCreateCall (desiredName.dropRight 1)], st)
  | .error e => .error e

/-- Embedding of HetznerProvider._apply: the target zone is resolved by
name; a NotFound triggers zone creation (with the trailing dot dropped)
and the created id is used directly; every change is processed in plan
order; finally the zone's record-cache entry is evicted. -/
def applyPlan (client : ClientSpec) (strat : StrategySpec)
    (st : ProviderState) (desiredName : String) (changes : List Change) :
    Except PErr (List ApiCall × ProviderState) :=
  match resolveZoneForApply client st desiredName with
  | .error e => .error e
  | .ok (zone_id, pre, st1) =>
    match applyChanges client strat zone_id changes st1 with
    | .error e => .error e
    | .ok (calls, st2) =>
      .ok (pre ++ calls,
        { st2 with zoneRecords := eraseKey st2.zoneRecords desiredName })

/-- A change targets a zone name when the cache reads it triggers are for
that name (create reads no cache). -/
def targetsName (name : String) : Change → Prop
  | .create _ => True
  | .update _ _ zn => zn = name
  | .delete _ zn => zn = name

/-- A client whose zone lookup always raises one of the caught error
classes, whose record listing is empty and whose zone creation returns a
fresh id. -/
def clientNotFound : ClientSpec :=
  ⟨fun _ => .error (), fun _ => [], fun n => ⟨"znew", n, 3600⟩⟩

/-- The record-CRUD strategy bound to the multi-value params encoder, as
the provider dispatches it for A, AAAA, NS and TXT records. -/
def dnsapiStrategySpec : StrategySpec :=
  ⟨fun zid new => dnsapiApplyCreate zid new paramsForMultiple,
   fun zid ex new recs => dnsapiApplyUpdate zid ex new paramsForMultiple recs,
   fun zid ex recs => dnsapiApplyDelete zid ex recs⟩

/-- A provider with empty caches, as freshly constructed. -/
def emptyProviderState : ProviderState := ⟨[], [], []⟩

/-! ## Theorems -/

/-- The escaped form of a list never starts with a bare semicolon. -/
theorem escapeSemis_head_ne_semi (l : List Char) :
    ∀ rest, escapeSemis l ≠ ';' :: rest := by
  intro rest
  match l with
  | [] => simp [escapeSemis]
  | c :: tl =>
    simp only [escapeSemis]
    by_cases hc : c = ';'
    · simp only [hc, if_pos rfl]
      intro h
      have : bslash = ';' := by
        exact (List.cons.injEq _ _ _ _).mp h |>.1
      exact absurd this (by decide)
    · simp only [if_neg hc]
      intro h
      exact hc ((List.cons.injEq _ _ _ _).mp h |>.1)

/-- Unescaping a backslash-semicolon pair at the head yields a semicolon. -/
theorem unescapeSemis_escaped_pair (rest : List Char) :
    unescapeSemis (bslash :: ';' :: rest) = ';' :: unescapeSemis rest := by
  simp [unescapeSemis]

/-- Unescaping leaves the head untouched when it does not start an escaped
semicolon pair. -/
theorem unescapeSemis_cons_cons (c e : Char) (es : List Char)
    (h : ¬(c = bslash ∧ e = ';')) :
    unescapeSemis (c :: e :: es) = c :: unescapeSemis (e :: es) := by
  simp only [unescapeSemis]
  rw [if_neg h]

/-- Unescaping after escaping is the identity on character lists. -/
theorem unescapeSemis_escapeSemis (l : List Char) :
    unescapeSemis (escapeSemis l) = l := by
  induction l with
  | nil => rfl
  | cons c tl ih =>
    by_cases hc : c = ';'
    · subst hc
      have h1 : escapeSemis (';' :: tl) = bslash :: ';' :: escapeSemis tl := by
        simp [escapeSemis]
      rw [h1, unescapeSemis_escaped_pair, ih]
    · simp only [escapeSemis, if_neg hc]
      match htl : escapeSemis tl with
      | [] =>
        have htl0 : tl = [] := by
          cases tl with
          | nil => rfl
          | cons a as =>
            exfalso
            simp only [escapeSemis] at htl
            by_cases ha : a = ';' <;> simp [ha] at htl
        simp [unescapeSemis, htl0]
      | e :: es =>
        have hne : ¬(c = bslash ∧ e = ';') := by
          rintro ⟨h1, h2⟩
          exact escapeSemis_head_ne_semi tl es (h2 ▸ htl)
        rw [unescapeSemis_cons_cons c e es hne, ← htl, ih]

/-- String-level round trip: encoding undoes the decode-time escape. -/
theorem unescapeSemisStr_escapeSemisStr (s : String) :
    unescapeSemisStr (escapeSemisStr s) = s := by
  cases s with
  | mk data =>
    simp [unescapeSemisStr, escapeSemisStr, unescapeSemis_escapeSemis]

/-- C5: For every record group of an A, AAAA or TXT record, decoding
(which rewrites semicolons to escaped semicolons in each value) followed
by encoding (which rewrites them back) reproduces exactly the original
wire value strings, in the same order. -/
theorem multiple_decode_encode_roundtrip
    (meta : List (String × ZoneDict)) (rtype nm : String)
    (r0 : FlatRecord) (rs : List FlatRecord) (z : ZoneDict)
    (hm : meta.lookup r0.zone_id = some z) :
    ∃ d, dataForMultiple meta rtype (r0 :: rs) = .ok d ∧
      (paramsForMultiple ⟨nm, rtype, d.ttl, d.values⟩).map (fun p => p.value)
        = (r0 :: rs).map (fun r => r.value) := by
  refine ⟨⟨r0.ttl.getD z.ttl, rtype, (r0 :: rs).map (fun r => escapeSemisStr r.value)⟩, ?_, ?_⟩
  · simp [dataForMultiple, recordTtl, hm, Except.map]
  · simp only [paramsForMultiple, List.map_map]
    apply List.map_congr_left
    intro r _
    simp [Function.comp, unescapeSemisStr_escapeSemisStr]

/-- Witness for C5 at a concrete group of two TXT wire rows, one of them
containing a semicolon. -/
theorem multiple_decode_encode_roundtrip_witness :
    ([("z1", (⟨"z1", "unit.tests", 3600⟩ : ZoneDict))].lookup "z1"
        = some (⟨"z1", "unit.tests", 3600⟩ : ZoneDict)) ∧
      ∃ d, dataForMultiple [("z1", ⟨"z1", "unit.tests", 3600⟩)] "TXT"
          [⟨"r1", "TXT", "txt", "v=spf1 a;b", some 300, "z1"⟩,
           ⟨"r2", "TXT", "txt", "plain", none, "z1"⟩] = .ok d ∧
        (paramsForMultiple ⟨"txt", "TXT", d.ttl, d.values⟩).map (fun p => p.value)
          = ["v=spf1 a;b", "plain"] :=
  ⟨by decide,
   multiple_decode_encode_roundtrip
     [("z1", ⟨"z1", "unit.tests", 3600⟩)] "TXT" "txt"
     ⟨"r1", "TXT", "txt", "v=spf1 a;b", some 300, "z1"⟩
     [⟨"r2", "TXT", "txt", "plain", none, "z1"⟩]
     ⟨"z1", "unit.tests", 3600⟩ (by decide)⟩

/-- C4: For every non-empty CAA record group (with zone metadata
available for the TTL default), decoding never raises: the group decodes
to one structured value per record, where a record whose value text
tokenizes into at least three tokens with an integer first token yields
flags, tag and value from the first three tokens, and every record that
fails to tokenize, yields fewer than three tokens, or has a non-integer
first token yields the fallback value with flags 0 and tag issue carrying
the raw text. -/
theorem caa_decode_never_raises
    (meta : List (String × ZoneDict)) (rtype : String)
    (r0 : FlatRecord) (rs : List FlatRecord) (z : ZoneDict)
    (hm : meta.lookup r0.zone_id = some z) :
    (∃ d, dataForCAA meta rtype (r0 :: rs) = .ok d ∧
        d.values = (r0 :: rs).map (fun r => caaValueFor r.value)) ∧
      (∀ raw p0 p1 p2 ps flags, shlexSplit raw = .ok (p0 :: p1 :: p2 :: ps) →
        pyInt p0 = some flags → caaValueFor raw = ⟨flags, p1, p2⟩) ∧
      (∀ raw, shlexSplit raw = .error () → caaValueFor raw = ⟨0, "issue", raw⟩) ∧
      (∀ raw parts, shlexSplit raw = .ok parts → parts.length < 3 →
        caaValueFor raw = ⟨0, "issue", raw⟩) ∧
      (∀ raw p0 p1 p2 ps, shlexSplit raw = .ok (p0 :: p1 :: p2 :: ps) →
        pyInt p0 = none → caaValueFor raw = ⟨0, "issue", raw⟩) := by
  refine ⟨⟨⟨r0.ttl.getD z.ttl, rtype, (r0 :: rs).map (fun r => caaValueFor r.value)⟩, ?_, rfl⟩,
    ?_, ?_, ?_, ?_⟩
  · simp [dataForCAA, recordTtl, hm, Except.map]
  · intro raw p0 p1 p2 ps flags hs hi
    simp only [caaValueFor, caaTryParse, hs]
    have hlen : ¬((p0 :: p1 :: p2 :: ps).length < 3) := by
      simp [List.length_cons]
    rw [if_neg hlen]
    simp [hi]
  · intro raw hs
    simp [caaValueFor, caaTryParse, hs]
  · intro raw parts hs hlen
    simp [caaValueFor, caaTryParse, hs, if_pos hlen]
  · intro raw p0 p1 p2 ps hs hi
    simp only [caaValueFor, caaTryParse, hs]
    have hlen : ¬((p0 :: p1 :: p2 :: ps).length < 3) := by
      simp [List.length_cons]
    rw [if_neg hlen]
    simp [hi]

/-- Witness for C4 at a concrete two-record group: a well-formed CAA row
and a row with an unclosed double quote (whose tokenization raises and is
recovered by the fallback). -/
theorem caa_decode_never_raises_witness :
    ([("z1", (⟨"z1", "unit.tests", 3600⟩ : ZoneDict))].lookup "z1"
        = some (⟨"z1", "unit.tests", 3600⟩ : ZoneDict)) ∧
      ∃ d, dataForCAA [("z1", ⟨"z1", "unit.tests", 3600⟩)] "CAA"
          [⟨"r1", "CAA", "", "0 issue ca.example.net", some 300, "z1"⟩,
           ⟨"r2", "CAA", "", "0 issue \"broken", none, "z1"⟩] = .ok d ∧
        d.values = [caaValueFor "0 issue ca.example.net",
          caaValueFor "0 issue \"broken"] :=
  ⟨by decide,
   (caa_decode_never_raises [("z1", ⟨"z1", "unit.tests", 3600⟩)] "CAA"
     ⟨"r1", "CAA", "", "0 issue ca.example.net", some 300, "z1"⟩
     [⟨"r2", "CAA", "", "0 issue \"broken", none, "z1"⟩]
     ⟨"z1", "unit.tests", 3600⟩ (by decide)).1⟩

/-- Sanity check: the concrete well-formed CAA row parses into its three
tokens and the unclosed-quote row falls back. -/
theorem caa_concrete_values :
    caaValueFor "0 issue ca.example.net" = ⟨0, "issue", "ca.example.net"⟩ ∧
      caaValueFor "0 issue \"broken" = ⟨0, "issue", "0 issue \"broken"⟩ := by
  constructor <;> rfl

/-- The split of any string has at least one field. -/
theorem pySplitSpaceAux_ne_nil (l : List Char) (cur : List Char) :
    pySplitSpaceAux l cur ≠ [] := by
  match l with
  | [] => simp [pySplitSpaceAux]
  | c :: rest =>
    simp only [pySplitSpaceAux]
    by_cases hc : c = ' '
    · simp [hc]
    · rw [if_neg hc]
      exact pySplitSpaceAux_ne_nil rest (c :: cur)

/-! ## Partiality of the decode helpers (claim C10) -/

/-- A nonempty list has a last element. -/
theorem lastExists {α : Type} : (l : List α) → l ≠ [] → ∃ c, l.getLast? = some c
  | [], h => absurd rfl h
  | [a], _ => ⟨a, by simp [List.getLast?]⟩
  | a :: b :: t, _ => by
    obtain ⟨c, hc⟩ := lastExists (b :: t) (List.cons_ne_nil _ _)
    exact ⟨c, by rw [List.getLast?_cons_cons]; exact hc⟩

/-- The append-dot helper succeeds on every non-empty value. -/
theorem appendDot_ok_of_ne_empty (v : String) (h : v ≠ "") :
    ∃ w, appendDot v = .ok w := by
  by_cases hv : v = "@"
  · exact ⟨v, by simp [appendDot, hv]⟩
  · have hd : v.data ≠ [] := by
      intro hnil
      apply h
      cases v with
      | mk data => simp only [String.data] at hnil; rw [hnil]
    obtain ⟨c, hc⟩ := lastExists v.data hd
    by_cases hdot : c = '.'
    · exact ⟨v, by simp [appendDot, hv, hc, hdot]⟩
    · exact ⟨v ++ ".", by simp [appendDot, hv, hc, hdot]⟩

/-- The per-record loop succeeds when every element decode succeeds. -/
theorem mapExcept_ok_of_forall {α β ε : Type} {f : α → Except ε β} :
    (l : List α) → (∀ a ∈ l, ∃ b, f a = .ok b) →
    ∃ bs, mapExcept f l = .ok bs
  | [], _ => ⟨[], rfl⟩
  | a :: t, h => by
    obtain ⟨b, hb⟩ := h a (by simp)
    obtain ⟨bs, hbs⟩ := mapExcept_ok_of_forall t (fun x hx => h x (by simp [hx]))
    exact ⟨b :: bs, by simp only [mapExcept, hb, hbs]; rfl⟩

/-- The per-record loop either succeeds or stops at the designated error
when every element decode does. -/
theorem mapExcept_ok_or {α β ε : Type} {f : α → Except ε β} (e : ε) :
    (l : List α) → (∀ a ∈ l, (∃ b, f a = .ok b) ∨ f a = .error e) →
    (∃ bs, mapExcept f l = .ok bs) ∨ mapExcept f l = .error e
  | [], _ => .inl ⟨[], rfl⟩
  | a :: t, h => by
    rcases h a (by simp) with ⟨b, hb⟩ | hb
    · rcases mapExcept_ok_or e t (fun x hx => h x (by simp [hx])) with ⟨bs, hbs⟩ | hbs
      · exact .inl ⟨b :: bs, by simp only [mapExcept, hb, hbs]; rfl⟩
      · exact .inr (by simp only [mapExcept, hb, hbs]; rfl)
    · exact .inr (by simp only [mapExcept, hb]; rfl)

/-- On a nonempty list, getLastD agrees with getLast. -/
theorem getLastD_cons_eq_getLast {α : Type} (d : α) (p : α) (ps : List α) :
    (p :: ps).getLastD d = (p :: ps).getLast (List.cons_ne_nil p ps) := by
  rw [List.getLastD_eq_getLast?, List.getLast?_eq_getLast (p :: ps) (List.cons_ne_nil p ps)]
  rfl

/-- An MX record whose exchange token is non-empty decodes, or fails only
in int parsing of the preference. -/
theorem mxOne_ok_or_intParse (r : FlatRecord) (h : lastToken r.value ≠ "") :
    (∃ v, mxOne r = .ok v) ∨ mxOne r = .error .intParse := by
  unfold mxOne
  split
  next hnil => exact absurd hnil (pySplitSpaceAux_ne_nil _ _)
  next p ps hs =>
    have hex : (p :: ps).getLast (List.cons_ne_nil p ps) ≠ "" := by
      have heq : lastToken r.value = (p :: ps).getLast (List.cons_ne_nil p ps) := by
        unfold lastToken
        rw [hs]
        exact getLastD_cons_eq_getLast "" p ps
      rwa [heq] at h
    split
    next hp => exact .inr rfl
    next pref hp =>
      obtain ⟨w, hw⟩ := appendDot_ok_of_ne_empty _ hex
      rw [hw]
      exact .inl ⟨⟨pref, w⟩, rfl⟩

/-- An SRV record whose target token is non-empty decodes, or fails only
in int parsing of port, priority or weight. -/
theorem srvOne_ok_or_intParse (r : FlatRecord) (h : lastToken r.value ≠ "") :
    (∃ v, srvOne r = .ok v) ∨ srvOne r = .error .intParse := by
  unfold srvOne
  split
  next hnil => exact absurd hnil (pySplitSpaceAux_ne_nil _ _)
  next p ps hs =>
    have hex : (p :: ps).getLast (List.cons_ne_nil p ps) ≠ "" := by
      have heq : lastToken r.value = (p :: ps).getLast (List.cons_ne_nil p ps) := by
        unfold lastToken
        rw [hs]
        exact getLastD_cons_eq_getLast "" p ps
      rwa [heq] at h
    split
    next hnil2 => exact absurd hnil2 (pySplitSpaceAux_ne_nil _ _)
    next w ws hs2 =>
      split
      next hnil3 => exact absurd hnil3 (pySplitSpaceAux_ne_nil _ _)
      next q qs hs3 =>
        split
        next hq => exact .inr rfl
        next port hq =>
          split
          next hp => exact .inr rfl
          next prio hp =>
            obtain ⟨tgt, htgt⟩ := appendDot_ok_of_ne_empty _ hex
            rw [htgt]
            cases hw : pyInt w with
            | none => exact .inr rfl
            | some weight => exact .inl ⟨⟨port, prio, tgt, weight⟩, rfl⟩

/-- C10: The decode helpers are partial exactly at the documented
boundaries: the trailing-dot helper raises on the empty string and
succeeds on every other value; every per-type decoder raises on an empty
record group; and under the preconditions that the group is non-empty
(with zone metadata available) and that CNAME/PTR/NS values and MX/SRV
target tokens are non-empty, those error branches are unreachable: the
CNAME, PTR and NS decoders are total, and the MX and SRV decoders can
fail only in integer parsing. -/
theorem decode_error_branches :
    (appendDot "" = .error .emptyValue) ∧
    (∀ v : String, v ≠ "" → ∃ w, appendDot v = .ok w) ∧
    (∀ (meta : List (String × ZoneDict)) (rtype : String),
      dataForMultiple meta rtype [] = .error .emptyGroup ∧
      dataForCAA meta rtype [] = .error .emptyGroup ∧
      dataForCNAME meta rtype [] = .error .emptyGroup ∧
      dataForPTR meta rtype [] = .error .emptyGroup ∧
      dataForNS meta rtype [] = .error .emptyGroup ∧
      dataForMX meta rtype [] = .error .emptyGroup ∧
      dataForSRV meta rtype [] = .error .emptyGroup) ∧
    (∀ (meta : List (String × ZoneDict)) (rtype : String) (r0 : FlatRecord)
      (rs : List FlatRecord) (z : ZoneDict),
      meta.lookup r0.zone_id = some z → r0.value ≠ "" →
      (∃ d, dataForCNAME meta rtype (r0 :: rs) = .ok d) ∧
      (∃ d, dataForPTR meta rtype (r0 :: rs) = .ok d)) ∧
    (∀ (meta : List (String × ZoneDict)) (rtype : String) (r0 : FlatRecord)
      (rs : List FlatRecord) (z : ZoneDict),
      meta.lookup r0.zone_id = some z → (∀ r ∈ r0 :: rs, r.value ≠ "") →
      ∃ d, dataForNS meta rtype (r0 :: rs) = .ok d) ∧
    (∀ (meta : List (String × ZoneDict)) (rtype : String) (r0 : FlatRecord)
      (rs : List FlatRecord) (z : ZoneDict),
      meta.lookup r0.zone_id = some z →
      (∀ r ∈ r0 :: rs, lastToken r.value ≠ "") →
      (∃ d, dataForMX meta rtype (r0 :: rs) = .ok d) ∨
        dataForMX meta rtype (r0 :: rs) = .error .intParse) ∧
    (∀ (meta : List (String × ZoneDict)) (rtype : String) (r0 : FlatRecord)
      (rs : List FlatRecord) (z : ZoneDict),
      meta.lookup r0.zone_id = some z →
      (∀ r ∈ r0 :: rs, lastToken r.value ≠ "") →
      (∃ d, dataForSRV meta rtype (r0 :: rs) = .ok d) ∨
        dataForSRV meta rtype (r0 :: rs) = .error .intParse) := by
  refine ⟨rfl, appendDot_ok_of_ne_empty, fun meta rtype => ⟨rfl, rfl, rfl, rfl, rfl, rfl, rfl⟩,
    ?_, ?_, ?_, ?_⟩
  · intro meta rtype r0 rs z hm hv
    obtain ⟨w, hw⟩ := appendDot_ok_of_ne_empty r0.value hv
    constructor
    · exact ⟨⟨r0.ttl.getD z.ttl, rtype, w⟩,
        by simp [dataForCNAME, recordTtl, hm, hw, Except.bind]; rfl⟩
    · exact ⟨⟨r0.ttl.getD z.ttl, rtype, w⟩,
        by simp [dataForPTR, recordTtl, hm, hw, Except.bind]; rfl⟩
  · intro meta rtype r0 rs z hm hall
    obtain ⟨vs, hvs⟩ := mapExcept_ok_of_forall (r0 :: rs)
      (fun a ha => appendDot_ok_of_ne_empty a.value (hall a ha))
    exact ⟨⟨r0.ttl.getD z.ttl, rtype, vs⟩,
      by simp [dataForNS, hvs, recordTtl, hm, Except.bind, Except.map]; rfl⟩
  · intro meta rtype r0 rs z hm hall
    rcases mapExcept_ok_or DecErr.intParse (r0 :: rs)
        (fun a ha => mxOne_ok_or_intParse a (hall a ha)) with ⟨vs, hvs⟩ | herr
    · exact .inl ⟨⟨r0.ttl.getD z.ttl, rtype, vs⟩,
        by simp [dataForMX, hvs, recordTtl, hm, Except.bind, Except.map]; rfl⟩
    · exact .inr (by simp [dataForMX, herr, Except.bind]; rfl)
  · intro meta rtype r0 rs z hm hall
    rcases mapExcept_ok_or DecErr.intParse (r0 :: rs)
        (fun a ha => srvOne_ok_or_intParse a (hall a ha)) with ⟨vs, hvs⟩ | herr
    · exact .inl ⟨⟨r0.ttl.getD z.ttl, rtype, vs⟩,
        by simp [dataForSRV, hvs, recordTtl, hm, Except.bind, Except.map]; rfl⟩
    · exact .inr (by simp [dataForSRV, herr, Except.bind]; rfl)

/-- Witness for C10, instantiating the hypothesized conjuncts at concrete
inputs: a non-empty value for the trailing-dot helper, a concrete CNAME
group, and a concrete MX group with a non-empty exchange token. -/
theorem decode_error_branches_witness :
    (("example.com" : String) ≠ "" ∧ ∃ w, appendDot "example.com" = .ok w) ∧
    (([("z1", (⟨"z1", "unit.tests", 3600⟩ : ZoneDict))].lookup "z1"
        = some (⟨"z1", "unit.tests", 3600⟩ : ZoneDict)) ∧
      (∃ d, dataForCNAME [("z1", ⟨"z1", "unit.tests", 3600⟩)] "CNAME"
        [⟨"r1", "CNAME", "www", "unit.tests", some 300, "z1"⟩] = .ok d)) ∧
    ((∀ r ∈ [(⟨"r2", "MX", "", "10 mail.unit.tests", some 300, "z1"⟩ : FlatRecord)],
        lastToken r.value ≠ "") ∧
      ((∃ d, dataForMX [("z1", ⟨"z1", "unit.tests", 3600⟩)] "MX"
          [⟨"r2", "MX", "", "10 mail.unit.tests", some 300, "z1"⟩] = .ok d) ∨
        dataForMX [("z1", ⟨"z1", "unit.tests", 3600⟩)] "MX"
          [⟨"r2", "MX", "", "10 mail.unit.tests", some 300, "z1"⟩]
            = .error .intParse)) :=
  ⟨⟨by decide, decode_error_branches.2.1 "example.com" (by decide)⟩,
   ⟨by decide,
    (decode_error_branches.2.2.2.1 [("z1", ⟨"z1", "unit.tests", 3600⟩)] "CNAME"
      ⟨"r1", "CNAME", "www", "unit.tests", some 300, "z1"⟩ []
      ⟨"z1", "unit.tests", 3600⟩ (by decide) (by decide)).1⟩,
   ⟨by decide,
    decode_error_branches.2.2.2.2.2.1 [("z1", ⟨"z1", "unit.tests", 3600⟩)] "MX"
      ⟨"r2", "MX", "", "10 mail.unit.tests", some 300, "z1"⟩ []
      ⟨"z1", "unit.tests", 3600⟩ (by decide) (by decide)⟩⟩

/-- C6: Under the record-CRUD strategy, a Delete change issues exactly
one deleteRecord call per cached zone record whose name and type match
the existing record, and no createRecord call; an Update change issues
all those deleteRecord calls first and then exactly one createRecord
call per encoded wire value of the new record, in that order. -/
theorem dnsapi_delete_then_create (zone_id : String) (existing new : ModelRecord)
    (paramsFor : ModelRecord → List RecordParams)
    (zone_records : List FlatRecord) :
    ((dnsapiApplyDelete zone_id existing zone_records).length
        = zone_records.countP (recordMatches existing))
    ∧ (∀ c ∈ dnsapiApplyDelete zone_id existing zone_records,
        ∃ r ∈ zone_records, recordMatches existing r = true
          ∧ c = .deleteRecord zone_id r.id)
    ∧ (∀ r ∈ zone_records, recordMatches existing r = true →
        ApiCall.deleteRecord zone_id r.id
          ∈ dnsapiApplyDelete zone_id existing zone_records)
    ∧ (∀ zid nm rt v t, ApiCall.createRecord zid nm rt v t
        ∉ dnsapiApplyDelete zone_id existing zone_records)
    ∧ dnsapiApplyUpdate zone_id existing new paramsFor zone_records
        = dnsapiApplyDelete zone_id existing zone_records
          ++ dnsapiApplyCreate zone_id new paramsFor
    ∧ dnsapiApplyCreate zone_id new paramsFor
        = (paramsFor new).map
            (fun p => ApiCall.createRecord zone_id p.name p.rtype p.value p.ttl) := by
  refine ⟨?_, ?_, ?_, ?_, rfl, rfl⟩
  · simp [dnsapiApplyDelete, List.countP_eq_length_filter]
  · intro c hc
    simp only [dnsapiApplyDelete, List.mem_map] at hc
    obtain ⟨r, hr, rfl⟩ := hc
    exact ⟨r, (List.mem_filter.mp hr).1, (List.mem_filter.mp hr).2, rfl⟩
  · intro r hr hmat
    simp only [dnsapiApplyDelete, List.mem_map]
    exact ⟨r, List.mem_filter.mpr ⟨hr, hmat⟩, rfl⟩
  · intro zid nm rt v t hmem
    simp only [dnsapiApplyDelete, List.mem_map] at hmem
    obtain ⟨r, _, heq⟩ := hmem
    exact ApiCall.noConfusion heq

/-- Witness for C6 at the documented example: a Delete for TXT at name
gone whose RRSet has two wire values issues exactly two deleteRecord
calls and the first cached row is among them. -/
theorem dnsapi_delete_then_create_witness :
    ((dnsapiApplyDelete "z1" ⟨"gone", "TXT", 600, ["a", "b"]⟩
        [⟨"r1", "TXT", "gone", "a", some 600, "z1"⟩,
         ⟨"r2", "TXT", "gone", "b", some 600, "z1"⟩,
         ⟨"r3", "A", "", "1.2.3.4", some 300, "z1"⟩]).length
      = List.countP (recordMatches ⟨"gone", "TXT", 600, ["a", "b"]⟩)
          [⟨"r1", "TXT", "gone", "a", some 600, "z1"⟩,
           ⟨"r2", "TXT", "gone", "b", some 600, "z1"⟩,
           ⟨"r3", "A", "", "1.2.3.4", some 300, "z1"⟩])
    ∧ List.countP (recordMatches ⟨"gone", "TXT", 600, ["a", "b"]⟩)
        [⟨"r1", "TXT", "gone", "a", some 600, "z1"⟩,
         ⟨"r2", "TXT", "gone", "b", some 600, "z1"⟩,
         ⟨"r3", "A", "", "1.2.3.4", some 300, "z1"⟩] = 2
    ∧ ApiCall.deleteRecord "z1" "r1"
        ∈ dnsapiApplyDelete "z1" ⟨"gone", "TXT", 600, ["a", "b"]⟩
          [⟨"r1", "TXT", "gone", "a", some 600, "z1"⟩,
           ⟨"r2", "TXT", "gone", "b", some 600, "z1"⟩,
           ⟨"r3", "A", "", "1.2.3.4", some 300, "z1"⟩] :=
  ⟨(dnsapi_delete_then_create "z1" ⟨"gone", "TXT", 600, ["a", "b"]⟩
      ⟨"gone", "TXT", 600, ["a", "b"]⟩ paramsForMultiple
      [⟨"r1", "TXT", "gone", "a", some 600, "z1"⟩,
       ⟨"r2", "TXT", "gone", "b", some 600, "z1"⟩,
       ⟨"r3", "A", "", "1.2.3.4", some 300, "z1"⟩]).1,
   by decide,
   (dnsapi_delete_then_create "z1" ⟨"gone", "TXT", 600, ["a", "b"]⟩
      ⟨"gone", "TXT", 600, ["a", "b"]⟩ paramsForMultiple
      [⟨"r1", "TXT", "gone", "a", some 600, "z1"⟩,
       ⟨"r2", "TXT", "gone", "b", some 600, "z1"⟩,
       ⟨"r3", "A", "", "1.2.3.4", some 300, "z1"⟩]).2.2.1
     ⟨"r1", "TXT", "gone", "a", some 600, "z1"⟩ (by decide) (by decide)⟩

set_option maxRecDepth 4096 in
/-- C2 evaluation: on the RRSet backend the TXT write path passes values
through unchanged: a 256-character logical TXT value reaches rrset_upsert
as a single unquoted, unchunked 256-character entry, and short values
arrive without surrounding double quotes. -/
theorem hcloud_txt_values_pass_through_unchunked :
    hcloudApplyCreate "unit.tests" ⟨"spf", "TXT", 300, [longTxtValue]⟩
        paramsForMultiple
      = [ApiCall.rrsetUpsertCall "unit.tests" "spf" "TXT" [longTxtValue] 300]
    ∧ longTxtValue.length = 256
    ∧ longTxtValue.data.head? ≠ some dquote
    ∧ hcloudApplyCreate "unit.tests" ⟨"txt", "TXT", 600, ["a", "b"]⟩
        paramsForMultiple
      = [ApiCall.rrsetUpsertCall "unit.tests" "txt" "TXT" ["a", "b"] 600] := by
  refine ⟨?_, by decide, by decide, by decide⟩
  decide

/-- C8: The zone-listing loop of the record-CRUD client breaks
immediately, returning the accumulated zones, whenever the next-page
value is absent, zero, or not strictly greater than the current page; it
requests a further page only for a strictly greater next-page value; and
for every response function whose next-page values are all sentinels in
this sense the loop terminates on its first iteration for any positive
fuel, returning the first page. -/
theorem domains_pagination (resp : Int → PageResp) :
    (∀ (fuel : Nat) (page : Int) (acc : List ZoneDict),
      ((resp page).next_page = none ∨
        ∃ np, (resp page).next_page = some np ∧ (np = 0 ∨ np ≤ page)) →
      domainsAux resp (fuel + 1) page acc = some (acc ++ (resp page).zones)) ∧
    (∀ (fuel : Nat) (page : Int) (acc : List ZoneDict) (np : Int),
      (resp page).next_page = some np → ¬(np = 0 ∨ np ≤ page) →
      page < np ∧
        domainsAux resp (fuel + 1) page acc
          = domainsAux resp fuel np (acc ++ (resp page).zones)) ∧
    ((∀ page : Int, 1 ≤ page →
        (resp page).next_page = none ∨
          ∃ np, (resp page).next_page = some np ∧ (np = 0 ∨ np ≤ page)) →
      ∀ fuel : Nat, 1 ≤ fuel → domains resp fuel = some ((resp 1).zones)) := by
  have hbreak : ∀ (fuel : Nat) (page : Int) (acc : List ZoneDict),
      ((resp page).next_page = none ∨
        ∃ np, (resp page).next_page = some np ∧ (np = 0 ∨ np ≤ page)) →
      domainsAux resp (fuel + 1) page acc = some (acc ++ (resp page).zones) := by
    intro fuel page acc h
    rcases h with hnone | ⟨np, hnp, hcond⟩
    · simp [domainsAux, hnone]
    · simp only [domainsAux, hnp]
      rw [if_pos hcond]
  refine ⟨hbreak, ?_, ?_⟩
  · intro fuel page acc np hnp hcond
    constructor
    · push_neg at hcond
      omega
    · simp only [domainsAux, hnp]
      rw [if_neg hcond]
  · intro hall fuel hfuel
    match fuel, hfuel with
    | k + 1, _ =>
      have h := hbreak k 1 [] (hall 1 le_rfl)
      simpa [domains] using h

/-- Witness for C8: on the concrete two-page listing the loop follows the
strictly-greater next page once, then stops at the zero sentinel, with
fuel to spare. -/
theorem domains_pagination_witness :
    domains pageRespExample 2
      = some [⟨"z1", "alpha.test", 3600⟩, ⟨"z2", "beta.test", 3600⟩] := by
  have h := domains_pagination pageRespExample
  have step1 := h.2.1 1 1 [] 2 (by decide) (by decide)
  have step2 := h.1 0 2 ([] ++ (pageRespExample 1).zones)
    (Or.inr ⟨0, by decide, Or.inl rfl⟩)
  calc domains pageRespExample 2
      = domainsAux pageRespExample 1 2 ([] ++ (pageRespExample 1).zones) :=
        step1.2
    _ = some (([] ++ (pageRespExample 1).zones) ++ (pageRespExample 2).zones) :=
        step2
    _ = some [⟨"z1", "alpha.test", 3600⟩, ⟨"z2", "beta.test", 3600⟩] := by
        decide

/-- C1 evaluation: the upsert and delete matchers compare RRSet names
raw, so a pre-existing RRSet named with the apex marker does not match an
apex (empty-name) request in either direction: the upsert creates a
second RRSet for the same normalized name and type instead of updating,
and the delete is a no-op although a normalized match exists. -/
theorem rrset_apex_marker_not_matched :
    (rrsetUpsertMatch [⟨"rr1", "@", "TXT", some 300, ["x"]⟩] "" "TXT" = none)
    ∧ ((rrsetUpsert [⟨"rr1", "@", "TXT", some 300, ["x"]⟩]
          "new1" "" "TXT" ["y"] 300).2
        = [⟨"rr1", "@", "TXT", some 300, ["x"]⟩,
           ⟨"new1", "@", "TXT", some 300, ["y"]⟩])
    ∧ (((rrsetUpsert [⟨"rr1", "@", "TXT", some 300, ["x"]⟩]
          "new1" "" "TXT" ["y"] 300).2).countP
            (fun r => normApexName r.name == "" && r.rtype == "TXT") = 2)
    ∧ (rrsetDelete [⟨"rr1", "@", "TXT", some 300, ["x"]⟩] "" "TXT"
        = (none, [⟨"rr1", "@", "TXT", some 300, ["x"]⟩]))
    ∧ (rrsetUpsertMatch [⟨"rr2", "", "TXT", some 300, ["x"]⟩] "@" "TXT"
        = none) := by
  decide

/-- Sanity check: when the provider stores the apex RRSet under the empty
name, the upsert does match and replaces the value list in place. -/
theorem rrset_apex_empty_name_matched :
    (rrsetUpsert [⟨"rr1", "", "A", some 300, ["1.2.3.4"]⟩]
        "new1" "" "A" ["1.2.3.4", "2.2.3.4"] 300).2
      = [⟨"rr1", "", "A", some 300, ["1.2.3.4", "2.2.3.4"]⟩] := by
  decide

/-- Splitting at the first colon inverts the synthetic-id construction
when the left part is colon-free. -/
theorem partitionColon_append (l m : List Char) (h : ':' ∉ l) :
    partitionColon (l ++ ':' :: m) = (l, m) := by
  induction l with
  | nil => simp [partitionColon]
  | cons c rest ih =>
    have hc : c ≠ ':' := fun hcc => h (by simp [hcc])
    have hrest : ':' ∉ rest := fun hr => h (by simp [hr])
    simp [partitionColon, hc, ih hrest]

/-- C9: For every synthetic record id built from a colon-free RRSet id
and a value, zone_record_delete locates the RRSet by id and removes
exactly the occurrences of that value: a no-op when no RRSet carries the
id; deletion of the whole RRSet when no values remain; a rewrite with
exactly the remaining values otherwise. -/
theorem zoneRecordDelete_spec (zoneTtl : Option Nat) (rrsets : List RRSet)
    (rid v : String) (hcolon : ':' ∉ rid.data) :
    zoneRecordDelete zoneTtl rrsets (rid ++ ":" ++ v)
      = rrsetRemoveValue zoneTtl rrsets rid v
    ∧ (rrsets.find? (fun r => r.id == rid) = none →
        zoneRecordDelete zoneTtl rrsets (rid ++ ":" ++ v) = (.noop, rrsets))
    ∧ (∀ target, rrsets.find? (fun r => r.id == rid) = some target →
        (target.records.filter (fun w => w ≠ v) = [] →
          zoneRecordDelete zoneTtl rrsets (rid ++ ":" ++ v)
            = (.deletedRRSet target.id,
               eraseFirstRRSet rrsets (fun r => r.id == rid)))
        ∧ (target.records.filter (fun w => w ≠ v) ≠ [] →
          zoneRecordDelete zoneTtl rrsets (rid ++ ":" ++ v)
            = (.rewroteRRSet target.id
                 (target.records.filter (fun w => w ≠ v))
                 (pyTtlChain target.ttl zoneTtl),
               updateFirstRRSet rrsets (fun r => r.id == rid)
                 (target.records.filter (fun w => w ≠ v))
                 (pyTtlChain target.ttl zoneTtl)))) := by
  have hdata : (rid ++ ":" ++ v).data = rid.data ++ ':' :: v.data := by
    rw [String.data_append, String.data_append, List.append_assoc]
    rfl
  have hsplit : zoneRecordDelete zoneTtl rrsets (rid ++ ":" ++ v)
      = rrsetRemoveValue zoneTtl rrsets rid v := by
    unfold zoneRecordDelete
    rw [hdata, partitionColon_append rid.data v.data hcolon]
  refine ⟨hsplit, ?_, ?_⟩
  · intro hfind
    rw [hsplit]
    unfold rrsetRemoveValue
    rw [hfind]
  · intro target hfind
    constructor
    · intro hempty
      rw [hsplit]
      unfold rrsetRemoveValue
      rw [hfind]
      dsimp only
      rw [if_pos hempty]
    · intro hne
      rw [hsplit]
      unfold rrsetRemoveValue
      rw [hfind]
      dsimp only
      rw [if_neg hne]

/-- Witness for C9 at the concrete test fixture: removing value a from
the two-value TXT RRSet rr2 rewrites it to the single value b, and the
first conjunct evaluates concretely. -/
theorem zoneRecordDelete_spec_witness :
    ((':' : Char) ∉ ("rr2" : String).data) ∧
      zoneRecordDelete (some 3600)
        [⟨"rr2", "gone", "TXT", some 600, ["a", "b"]⟩] ("rr2" ++ ":" ++ "a")
      = rrsetRemoveValue (some 3600)
        [⟨"rr2", "gone", "TXT", some 600, ["a", "b"]⟩] "rr2" "a" ∧
      rrsetRemoveValue (some 3600)
        [⟨"rr2", "gone", "TXT", some 600, ["a", "b"]⟩] "rr2" "a"
      = (.rewroteRRSet "rr2" ["b"] 600,
         [⟨"rr2", "gone", "TXT", some 600, ["b"]⟩]) :=
  ⟨by decide,
   (zoneRecordDelete_spec (some 3600)
     [⟨"rr2", "gone", "TXT", some 600, ["a", "b"]⟩] "rr2" "a" (by decide)).1,
   by decide⟩

/-- Sanity check: removing the last remaining value deletes the whole
RRSet, and an unknown RRSet id is a no-op. -/
theorem zoneRecordDelete_last_value_and_noop :
    rrsetRemoveValue (some 3600)
        [⟨"rr2", "gone", "TXT", some 600, ["b"]⟩] "rr2" "b"
      = (.deletedRRSet "rr2", []) ∧
    rrsetRemoveValue (some 3600)
        [⟨"rr2", "gone", "TXT", some 600, ["b"]⟩] "noid" "nothing"
      = (.noop, [⟨"rr2", "gone", "TXT", some 600, ["b"]⟩]) := by
  decide

/-- C3 counterexample: the adapter records nothing at zone creation, so a
record write immediately after creating a zone fails whenever the new
zone is not yet visible through the remote read path (here: an empty
read view), instead of succeeding via a creation-time cache. -/
theorem rrset_write_after_create_fails_when_invisible :
    zoneCreate "z9" "new.zone" none = ⟨"z9", "new.zone", 3600⟩
    ∧ getZoneByIdOrName [] "z9" = none
    ∧ rrsetUpsertClient [] "n1" "z9" "" "A" ["1.2.3.4"] 300 = .error () := by
  refine ⟨rfl, rfl, rfl⟩

/-- C3 amended: the adapter keeps no zone cache; zone resolution goes
through the remote read view only, so an rrset_upsert issued with the id
returned by zone_create succeeds exactly when that id (or name) is
already visible in the remote read view. -/
theorem rrsetUpsertClient_ok_iff_visible (view : List RemoteZone)
    (newId zone_id name rtype : String) (values : List String) (ttl : Nat) :
    (∃ res, rrsetUpsertClient view newId zone_id name rtype values ttl
        = .ok res)
      ↔ (getZoneByIdOrName view zone_id).isSome := by
  unfold rrsetUpsertClient
  cases h : getZoneByIdOrName view zone_id with
  | none => simp
  | some z => simp

/-- With nothing cached for a zone and the client lookup raising, the
record fetch yields the empty list and leaves the state untouched. -/
theorem zoneRecordsP_notFound (client : ClientSpec) (st : ProviderState)
    (name : String)
    (h1 : st.zoneRecords.lookup name = none)
    (h2 : st.zoneNameToId.lookup name = none)
    (h3 : client.zone_get (name.dropRight 1) = .error ()) :
    zoneRecordsP client st name = .ok ([], st) := by
  unfold zoneRecordsP zoneMetadataByName
  rw [h1, h2, h3]

/-- Processing changes that all target a zone the client cannot find
leaves the provider state unchanged and never fails. -/
theorem applyChanges_const_state (client : ClientSpec) (strat : StrategySpec)
    (zid name : String) :
    ∀ (changes : List Change) (st : ProviderState),
      st.zoneRecords.lookup name = none →
      st.zoneNameToId.lookup name = none →
      client.zone_get (name.dropRight 1) = .error () →
      (∀ c ∈ changes, targetsName name c) →
      ∃ calls, applyChanges client strat zid changes st = .ok (calls, st)
  | [], _, _, _, _, _ => ⟨[], rfl⟩
  | c :: cs, st, h1, h2, h3, hall => by
    have hrecs : zoneRecordsP client st name = .ok ([], st) :=
      zoneRecordsP_notFound client st name h1 h2 h3
    obtain ⟨calls2, h4⟩ := applyChanges_const_state client strat zid name cs st
      h1 h2 h3 (fun x hx => hall x (by simp [hx]))
    cases c with
    | create new =>
      exact ⟨strat.applyCreate zid new ++ calls2,
        by simp [applyChanges, applyChange, h4]⟩
    | update ex new zn =>
      have htn : zn = name := hall (.update ex new zn) (by simp)
      subst htn
      exact ⟨strat.applyUpdate zid ex new [] ++ calls2,
        by simp [applyChanges, applyChange, hrecs, h4]⟩
    | delete ex zn =>
      have htn : zn = name := hall (.delete ex zn) (by simp)
      subst htn
      exact ⟨strat.applyDelete zid ex [] ++ calls2,
        by simp [applyChanges, applyChange, hrecs, h4]⟩

/-- Evicting a key removes it from the cache. -/
theorem eraseKey_lookup_self {β : Type} (l : List (String × β)) (k : String) :
    (eraseKey l k).lookup k = none := by
  induction l with
  | nil => rfl
  | cons head rest ih =>
    obtain ⟨k1, b⟩ := head
    by_cases hk : k1 = k
    · have hdrop : eraseKey ((k1, b) :: rest) k = eraseKey rest k := by
        simp [eraseKey, List.filter_cons, hk]
      rw [hdrop]
      exact ih
    · have hkeep : eraseKey ((k1, b) :: rest) k = (k1, b) :: eraseKey rest k := by
        simp [eraseKey, List.filter_cons, hk]
      have hbeq : (k == k1) = false := beq_eq_false_iff_ne.mpr (Ne.symm hk)
      rw [hkeep]
      simp only [List.lookup, hbeq]
      exact ih

/-- Evicting a key leaves every other key untouched. -/
theorem eraseKey_lookup_other {β : Type} (l : List (String × β))
    (k k2 : String) (h : k2 ≠ k) :
    (eraseKey l k).lookup k2 = l.lookup k2 := by
  induction l with
  | nil => rfl
  | cons head rest ih =>
    obtain ⟨k1, b⟩ := head
    by_cases hk : k1 = k
    · have hdrop : eraseKey ((k1, b) :: rest) k = eraseKey rest k := by
        simp [eraseKey, List.filter_cons, hk]
      have hbeq : (k2 == k1) = false :=
        beq_eq_false_iff_ne.mpr (hk ▸ h)
      rw [hdrop, ih]
      simp only [List.lookup, hbeq]
    · have hkeep : eraseKey ((k1, b) :: rest) k = (k1, b) :: eraseKey rest k := by
        simp [eraseKey, List.filter_cons, hk]
      rw [hkeep]
      by_cases hk2 : k2 = k1
      · have hbeq : (k2 == k1) = true := beq_iff_eq.mpr hk2
        simp only [List.lookup, hbeq]
      · have hbeq : (k2 == k1) = false := beq_eq_false_iff_ne.mpr hk2
        simp only [List.lookup, hbeq]
        exact ih

/-- The empty grouping. -/
theorem groupByNameType_nil : groupByNameType [] = [] := by
  simp [groupByNameType, firstOcc]

/-- C7: A zone-lookup NotFound during populate yields an empty decoded
set with the pre-exists flag false, without raising and without touching
the caches; a zone-lookup NotFound at the start of apply triggers zone
creation (the created id drives the plan and the creation call precedes
all change calls); and every successful apply ends by evicting exactly
the target zone's record-cache entry from the state reached after
processing all changes in plan order, with the key gone and all other
keys preserved. -/
theorem populate_apply_notfound_policy :
    (∀ (α : Type) (client : ClientSpec)
      (dataFor : String → List FlatRecord → Except DecErr α)
      (st : ProviderState) (name : String),
      st.zoneRecords.lookup name = none →
      st.zoneNameToId.lookup name = none →
      client.zone_get (name.dropRight 1) = .error () →
      populateP client dataFor st name = .ok ([], false, st)) ∧
    (∀ (client : ClientSpec) (strat : StrategySpec) (st : ProviderState)
      (name : String) (changes : List Change),
      st.zoneRecords.lookup name = none →
      st.zoneNameToId.lookup name = none →
      client.zone_get (name.dropRight 1) = .error () →
      (∀ c ∈ changes, targetsName name c) →
      ∃ callsMid,
        applyPlan client strat st name changes
          = .ok (ApiCall.zoneCreateCall (name.dropRight 1) :: callsMid,
                 { st with zoneRecords := eraseKey st.zoneRecords name })) ∧
    (∀ (client : ClientSpec) (strat : StrategySpec) (st : ProviderState)
      (name : String) (changes : List Change) (calls : List ApiCall)
      (st' : ProviderState),
      applyPlan client strat st name changes = .ok (calls, st') →
      ∃ zone_id pre st1 callsMid st2,
        resolveZoneForApply client st name = .ok (zone_id, pre, st1) ∧
        applyChanges client strat zone_id changes st1 = .ok (callsMid, st2) ∧
        calls = pre ++ callsMid ∧
        st' = { st2 with zoneRecords := eraseKey st2.zoneRecords name }) ∧
    (∀ (l : List (String × List FlatRecord)) (k : String),
      (eraseKey l k).lookup k = none ∧
      ∀ k2, k2 ≠ k → (eraseKey l k).lookup k2 = l.lookup k2) := by
  refine ⟨?_, ?_, ?_, ?_⟩
  · intro α client dataFor st name h1 h2 h3
    have hrecs : zoneRecordsP client st name = .ok ([], st) :=
      zoneRecordsP_notFound client st name h1 h2 h3
    unfold populateP
    rw [hrecs]
    simp [groupByNameType_nil, mapExcept, h1]
  · intro client strat st name changes h1 h2 h3 hall
    have hres : resolveZoneForApply client st name
        = .ok ((client.zone_create (name.dropRight 1)).id,
               [ApiCall.zoneCreateCall (name.dropRight 1)], st) := by
      unfold resolveZoneForApply zoneMetadataByName
      rw [h2, h3]
    obtain ⟨callsMid, hch⟩ :=
      applyChanges_const_state client strat
        (client.zone_create (name.dropRight 1)).id name changes st h1 h2 h3 hall
    refine ⟨callsMid, ?_⟩
    unfold applyPlan
    rw [hres]
    dsimp only
    rw [hch]
    rfl
  · intro client strat st name changes calls st' h
    unfold applyPlan at h
    cases hres : resolveZoneForApply client st name with
    | error e => rw [hres] at h; exact absurd h (by simp)
    | ok trip =>
      obtain ⟨zone_id, pre, st1⟩ := trip
      rw [hres] at h
      dsimp only at h
      cases hch : applyChanges client strat zone_id changes st1 with
      | error e => rw [hch] at h; exact absurd h (by simp)
      | ok pair =>
        obtain ⟨callsMid, st2⟩ := pair
        rw [hch] at h
        dsimp only at h
        simp only [Except.ok.injEq, Prod.mk.injEq] at h
        exact ⟨zone_id, pre, st1, callsMid, st2, rfl, hch,
          h.1.symm, h.2.symm⟩
  · intro l k
    exact ⟨eraseKey_lookup_self l k,
      fun k2 hk2 => eraseKey_lookup_other l k k2 hk2⟩

/-- Witness for C7 at a concrete always-NotFound client, an empty cache
state and a one-Delete plan: populate returns empty and false, and apply
creates the zone, processes the change and ends with the key evicted. -/
theorem populate_apply_notfound_policy_witness :
    (emptyProviderState.zoneRecords.lookup "unit.tests." = none) ∧
    (clientNotFound.zone_get ("unit.tests.".dropRight 1) = .error ()) ∧
    populateP clientNotFound (fun t recs => dataForMultiple [] t recs)
        emptyProviderState "unit.tests."
      = .ok ([], false, emptyProviderState) ∧
    ∃ callsMid,
      applyPlan clientNotFound dnsapiStrategySpec emptyProviderState
          "unit.tests." [.delete ⟨"gone", "TXT", 600, ["a", "b"]⟩ "unit.tests."]
        = .ok (ApiCall.zoneCreateCall ("unit.tests.".dropRight 1) :: callsMid,
               { emptyProviderState with
                  zoneRecords := eraseKey emptyProviderState.zoneRecords
                    "unit.tests." }) :=
  ⟨rfl, rfl,
   populate_apply_notfound_policy.1 MultiData clientNotFound
     (fun t recs => dataForMultiple [] t recs) emptyProviderState
     "unit.tests." rfl rfl rfl,
   populate_apply_notfound_policy.2.1 clientNotFound dnsapiStrategySpec
     emptyProviderState "unit.tests."
     [.delete ⟨"gone", "TXT", 600, ["a", "b"]⟩ "unit.tests."]
     rfl rfl rfl
     (by intro c hc; simp at hc; subst hc; exact rfl)⟩

/-- C10 counterexample: totality fails beyond the empty-string and
empty-group branches: an MX group that is non-empty, has its zone
metadata available and a non-empty exchange token still raises, in int()
on its non-numeric preference token. -/
theorem mx_decode_not_total_despite_preconditions :
    lastToken "xx mail.unit.tests" ≠ "" ∧
    ([("z1", (⟨"z1", "unit.tests", 3600⟩ : ZoneDict))].lookup "z1"
      = some (⟨"z1", "unit.tests", 3600⟩ : ZoneDict)) ∧
    dataForMX [("z1", ⟨"z1", "unit.tests", 3600⟩)] "MX"
        [⟨"r1", "MX", "", "xx mail.unit.tests", some 300, "z1"⟩]
      = .error .intParse := by
  refine ⟨by decide, by decide, ?_⟩
  rfl

end OctoHetzner
